import Mathlib

/-!
Verification of the alignment engine of `align_vtt_vtt_llm.py`.

The Python source is shallowly embedded: Python floats become exact
rationals (`ℚ`), Python lists become `List`, Python dicts with fixed keys
become structures, and the external LLM client becomes an explicit stub
parameter.  All definitions follow the source line by line; the source
functions keep their names.
-/

namespace VttAlign

/-! ## Data model (`VTTSegment`, `AlignedSegment`, candidate dicts) -/

/-- `VTTSegment` dataclass.  The Python field `end` is named `stop` here
because `end` is a Lean keyword. -/
structure VTTSegment where
  start : ℚ
  stop : ℚ
  speaker : String
  text : String
deriving DecidableEq, Inhabited

/-- A candidate dict as built by `find_speaker_candidates`.  The source
also stores `speaker_start` / `speaker_end` in the raw (pre-aggregation)
dicts, but those two keys are never read anywhere, so they are omitted. -/
structure Candidate where
  speaker : String
  overlap_duration : ℚ
  overlap_ratio : ℚ
  confidence_multiplier : ℚ
  used_tolerance : Bool
deriving DecidableEq, Inhabited

/-- `AlignedSegment` dataclass; `match_type` is a string in the source
("high_confidence", "llm_resolved", "fallback"). -/
structure AlignedSegment where
  start : ℚ
  stop : ℚ
  speaker : String
  text : String
  confidence : ℚ
  match_type : String
  reasoning : String
  candidates : List Candidate
deriving DecidableEq, Inhabited

/-- The `{speaker, confidence, reasoning}` dict shape returned by
`smart_fallback` and `ask_llm_for_speaker`. -/
structure LLMResult where
  speaker : String
  confidence : ℚ
  reasoning : String
deriving DecidableEq, Inhabited

/-- The `llm_stats` dict of `align_with_llm`. -/
structure LLMStats where
  attempts : Nat
  actual_calls : Nat
  fallbacks : Nat
deriving DecidableEq, Inhabited

/-- The `stats` dict of `align_with_llm`. -/
structure RunStats where
  high_confidence : Nat
  llm_resolved : Nat
  fallback : Nat
deriving DecidableEq, Inhabited

/-! ## Interval overlap engine -/

/-- `calculate_overlap`: overlap duration between two intervals. -/
def calculate_overlap (seg1_start seg1_end seg2_start seg2_end : ℚ) : ℚ :=
  let overlap_start := max seg1_start seg2_start
  let overlap_end := min seg1_end seg2_end
  max 0 (overlap_end - overlap_start)

/-! ## Candidate resolver (`find_speaker_candidates`) -/

/-- The loop body of `find_speaker_candidates` producing (or not) one raw
candidate dict per speaker segment.  Matches the
`if tolerance > 0 and strict_overlap == 0 ... elif strict_overlap > 0`
structure of the source. -/
def rawCandidate (text_seg : VTTSegment) (tolerance : ℚ) (spk_seg : VTTSegment) :
    Option Candidate :=
  let text_duration := text_seg.stop - text_seg.start
  let strict_overlap :=
    calculate_overlap spk_seg.start spk_seg.stop text_seg.start text_seg.stop
  if tolerance > 0 ∧ strict_overlap = 0 then
    let expanded_start := spk_seg.start - tolerance
    let expanded_end := spk_seg.stop + tolerance
    let tolerant_overlap :=
      calculate_overlap expanded_start expanded_end text_seg.start text_seg.stop
    if tolerant_overlap > 0 then
      let gap := min |spk_seg.stop - text_seg.start| |text_seg.stop - spk_seg.start|
      let penalty := max 0.85 (1 - gap / (tolerance * 2) * 0.15)
      some { speaker := spk_seg.speaker
             overlap_duration := tolerant_overlap
             overlap_ratio := if text_duration > 0 then tolerant_overlap / text_duration else 0
             confidence_multiplier := penalty
             used_tolerance := true }
    else none
  else if strict_overlap > 0 then
    some { speaker := spk_seg.speaker
           overlap_duration := strict_overlap
           overlap_ratio := if text_duration > 0 then strict_overlap / text_duration else 0
           confidence_multiplier := 1
           used_tolerance := false }
  else none

/-- Stable insertion for the descending-by-`overlap_duration` sort
(`candidates.sort(key=..., reverse=True)`, which is stable). -/
def insertByOverlap (c : Candidate) : List Candidate → List Candidate
  | [] => [c]
  | d :: ds =>
    if c.overlap_duration < d.overlap_duration then d :: insertByOverlap c ds
    else c :: d :: ds

/-- Stable descending sort by `overlap_duration`; ties keep the original
relative order, like Python's stable `list.sort`. -/
def sortByOverlap : List Candidate → List Candidate
  | [] => []
  | c :: cs => insertByOverlap c (sortByOverlap cs)

/-- The `speaker_totals` grouping step: the first occurrence of a speaker
creates the entry (ratio initialised to 0, multiplier/tolerance flag from
that occurrence) and every occurrence adds its `overlap_duration`. -/
def addOverlap (acc : List Candidate) (c : Candidate) : List Candidate :=
  if acc.any (fun t => t.speaker = c.speaker) then
    acc.map (fun t =>
      if t.speaker = c.speaker then
        { t with overlap_duration := t.overlap_duration + c.overlap_duration }
      else t)
  else acc ++ [{ c with overlap_ratio := 0 }]

/-- `speaker_totals` built in insertion order (Python dicts preserve
insertion order). -/
def groupBySpeaker (l : List Candidate) : List Candidate := l.foldl addOverlap []

/-- `find_speaker_candidates`: raw per-segment overlaps, stable descending
sort, aggregation per speaker, ratio recalculation
(`total / text_duration`; division by zero yields 0 in `ℚ`, and the
candidate list is empty anyway when the target has zero duration), and a
final stable descending sort. -/
def find_speaker_candidates (text_seg : VTTSegment) (speaker_segs : List VTTSegment)
    (tolerance : ℚ) : List Candidate :=
  let text_duration := text_seg.stop - text_seg.start
  let candidates := speaker_segs.filterMap (rawCandidate text_seg tolerance)
  let sorted := sortByOverlap candidates
  let aggregated := (groupBySpeaker sorted).map
    (fun c => { c with overlap_ratio := c.overlap_duration / text_duration })
  sortByOverlap aggregated

/-! ## Small helpers shared by the fallback and the orchestrator -/

/-- Python slice `l[-n:]` (gives the whole list when `n ≥ len(l)`). -/
def lastN (n : Nat) (l : List α) : List α := l.drop (l.length - n)

/-- Python `min(l, key=f)`: first element minimising `f`; `none` on `[]`. -/
def argminKey (f : α → ℚ) : List α → Option α
  | [] => none
  | x :: xs => some (xs.foldl (fun best y => if f y < f best then y else best) x)

/-- Left-pad a string with `'0'` up to length `n`. -/
def padZeros (n : Nat) (s : String) : String :=
  ⟨List.replicate (n - s.data.length) '0' ++ s.data⟩

/-- Fixed-point decimal rendering of a rational with `digits` fractional
digits, used where the source interpolates a float with `:.1f` / `:.2f`.
Rounds half away from zero; CPython rounds the nearest double half to
even, which agrees on every value this development evaluates. -/
def formatFixed (digits : Nat) (q : ℚ) : String :=
  let scaled := q * (10 : ℚ) ^ digits
  let n : Int := if scaled ≥ 0 then (scaled + 1/2).floor else -((-scaled + 1/2).floor)
  let sign := if n < 0 then "-" else ""
  let m := n.natAbs
  let ip := m / 10 ^ digits
  let fp := m % 10 ^ digits
  sign ++ toString ip ++ (if digits = 0 then "" else "." ++ padZeros digits (toString fp))

/-- Python `f"{q:.1%}"`: percentage with one fractional digit. -/
def formatPercent (q : ℚ) : String := formatFixed 1 (q * 100) ++ "%"

/-! ## Smart fallback (`smart_fallback`) -/

/-- `smart_fallback`: the five-strategy cascade used when a text segment
has no overlap candidates at all. -/
def smart_fallback (text_seg : VTTSegment) (speaker_vtt : List VTTSegment)
    (context_before : List AlignedSegment) : LLMResult :=
  let time_window : ℚ := 10
  let nearby_speakers :=
    speaker_vtt.filter (fun s => |s.start - text_seg.start| < time_window)
  -- Strategy 1: continue from active speaker
  let strat1 : Option LLMResult :=
    if context_before ≠ [] ∧ context_before.length ≥ 3 then
      let recent_speaker := (context_before.getLastD default).speaker
      let recent_count :=
        ((lastN 5 context_before).filter (fun s => s.speaker = recent_speaker)).length
      if recent_count ≥ 3 ∧ nearby_speakers ≠ [] then
        if nearby_speakers.any (fun s => s.speaker = recent_speaker) then
          some { speaker := recent_speaker
                 confidence := 0.65
                 reasoning := "Active speaker (" ++ toString recent_count ++ "/5 recent)" }
        else none
      else none
    else none
  match strat1 with
  | some r => r
  | none =>
    -- Strategy 2: nearest speaker inside the 10s window
    match argminKey
        (fun s => min |s.start - text_seg.start| |s.stop - text_seg.start|)
        nearby_speakers with
    | some nearest =>
      let time_dist := min |nearest.start - text_seg.start| |nearest.stop - text_seg.start|
      { speaker := nearest.speaker
        confidence := max 0.4 (0.7 - time_dist / time_window * 0.3)
        reasoning := "Nearest (" ++ formatFixed 1 time_dist ++ "s away)" }
    | none =>
      -- Strategy 3: previous aligned speaker
      if context_before ≠ [] then
        { speaker := (context_before.getLastD default).speaker
          confidence := 0.35
          reasoning := "Previous speaker" }
      else
        -- Strategy 4: globally nearest speaker segment
        match argminKey
            (fun s => min |s.start - text_seg.start| |s.stop - text_seg.stop|)
            speaker_vtt with
        | some nearest =>
          { speaker := nearest.speaker, confidence := 0.30, reasoning := "Global nearest" }
        | none =>
          -- Strategy 5: no speakers at all
          { speaker := "Unknown", confidence := 0.0, reasoning := "No speakers" }

/-! ## Arbitration oracle adapter (`ask_llm_for_speaker`)

The OpenAI client is modelled as an optional stub: `none` is the
"no client configured" mode, `some oracle` answers each request either
with `Except.ok` (a parsed JSON response) or `Except.error` (any
transport or parsing failure inside the `try` block). -/

/-- A stubbed decision service: receives exactly the data the source
builds its prompt from. -/
def Oracle : Type :=
  VTTSegment → List Candidate → List AlignedSegment → List VTTSegment →
    Except String LLMResult

/-- `ask_llm_for_speaker`.  Returns the decision and the updated
`llm_stats` counters (the source mutates the dict in place). -/
def ask_llm_for_speaker (text_seg : VTTSegment) (candidates : List Candidate)
    (context_before : List AlignedSegment) (context_after : List VTTSegment)
    (client : Option Oracle) (llm_stats : LLMStats) : LLMResult × LLMStats :=
  match client with
  | none =>
    -- Fallback: return top candidate
    ({ speaker := candidates.headI.speaker
       confidence := candidates.headI.overlap_ratio
       reasoning := "LLM not available, using top time-overlap candidate" },
     { llm_stats with fallbacks := llm_stats.fallbacks + 1 })
  | some oracle =>
    match oracle text_seg candidates context_before context_after with
    | Except.error _ =>
      ({ speaker := candidates.headI.speaker
         confidence := candidates.headI.overlap_ratio * 0.8
         reasoning := "LLM error, fallback to top candidate" }, llm_stats)
    | Except.ok result =>
      -- Count successful API call
      let llm_stats := { llm_stats with actual_calls := llm_stats.actual_calls + 1 }
      -- Validate speaker is in candidates
      if candidates.all (fun c => ¬ c.speaker = result.speaker) then
        ({ speaker := candidates.headI.speaker
           confidence := 0.7
           reasoning := "LLM returned invalid speaker, using top candidate" }, llm_stats)
      else (result, llm_stats)

/-! ## Character/string helpers modelling the Python built-ins -/

/-- The whitespace characters recognised by `str.strip` / `\s` (ASCII
subset; the inputs in scope contain no exotic Unicode whitespace). -/
def isSpace (c : Char) : Bool :=
  c = ' ' ∨ c = '\t' ∨ c = '\n' ∨ c = '\r' ∨ c = '\x0b' ∨ c = '\x0c'

/-- `str.strip()` on the character list of a string. -/
def stripChars (l : List Char) : List Char :=
  (l.dropWhile isSpace).rdropWhile isSpace

/-- `str.strip()`. -/
def strip (s : String) : String := ⟨stripChars s.data⟩

/-- Sentence-terminal punctuation class `[.!?]`. -/
def isPunct (c : Char) : Bool := c = '.' ∨ c = '!' ∨ c = '?'

/-- Does the list start with a whitespace character? -/
def headSpace : List Char → Bool
  | d :: _ => isSpace d
  | [] => false

/-- Prepend a character to the first part of a part list. -/
def headCons (c : Char) : List (List Char) → List (List Char)
  | [] => [[c]]
  | p :: ps => (c :: p) :: ps

/-- Scanner for `re.split(r'([.!?]\s+)', text)`.  `inSep = true` means the
scanner is inside the whitespace tail of a captured separator; the head of
the returned part list is the part (or separator tail) currently being
built. -/
def splitSentGo : Bool → List Char → List (List Char)
  | false, [] => [[]]
  | true, [] => [[], []]
  | false, c :: cs =>
    if isPunct c && headSpace cs then ([] : List Char) :: headCons c (splitSentGo true cs)
    else headCons c (splitSentGo false cs)
  | true, c :: cs =>
    if isSpace c then headCons c (splitSentGo true cs)
    else if isPunct c && headSpace cs then
      [] :: ([] : List Char) :: headCons c (splitSentGo true cs)
    else [] :: headCons c (splitSentGo false cs)

/-- `re.split(r'([.!?]\s+)', text)`: alternating text parts and captured
separators (a punctuation mark plus the following maximal whitespace
run). -/
def splitSent (l : List Char) : List (List Char) := splitSentGo false l

/-- `re.match(r'^[.!?]\s+$', s)`: is `s` a captured separator? -/
def isSepShape (l : List Char) : Bool :=
  match l with
  | c :: rest => isPunct c ∧ rest ≠ [] ∧ rest.all isSpace
  | [] => false

/-- The `while i < len(sentences)` reconstruction loop of
`split_turboscribe_segment_by_speakers`: re-attach each separator to the
preceding part, keep separator-less parts only when non-blank. -/
def reconstructSentences : List (List Char) → List (List Char)
  | [] => []
  | [s] => if stripChars s ≠ [] then [s] else []
  | s :: s2 :: rest2 =>
    if isSepShape s2 then (s ++ stripChars s2) :: reconstructSentences rest2
    else if stripChars s ≠ [] then s :: reconstructSentences (s2 :: rest2)
    else reconstructSentences (s2 :: rest2)

/-- Sentence list of a text segment: split plus reconstruction. -/
def fullSentences (text : String) : List (List Char) :=
  reconstructSentences (splitSent text.data)

/-- Stable ascending insertion by `start` (`overlapping.sort(key=lambda
x: x.start)`). -/
def insertByStart (c : VTTSegment) : List VTTSegment → List VTTSegment
  | [] => [c]
  | d :: ds => if d.start < c.start then d :: insertByStart c ds else c :: d :: ds

/-- Stable ascending sort by `start`. -/
def sortByStart : List VTTSegment → List VTTSegment
  | [] => []
  | c :: cs => insertByStart c (sortByStart cs)

/-! ## Segment splitter (`split_turboscribe_segment_by_speakers`) -/

/-- The speaker segments overlapping the text segment, sorted by start. -/
def overlappingSorted (text_seg : VTTSegment) (speaker_segs : List VTTSegment) :
    List VTTSegment :=
  sortByStart (speaker_segs.filter (fun spk_seg =>
    calculate_overlap spk_seg.start spk_seg.stop text_seg.start text_seg.stop > 0))

/-- The `best_speaker`/`max_overlap` inner loop: first strict maximiser of
overlap with the sentence sub-interval, `none` when every overlap is 0. -/
def bestSpeakerFor (overlapping : List VTTSegment) (sentence_start sentence_end : ℚ) :
    Option String :=
  (overlapping.foldl
    (fun (acc : Option String × ℚ) spk_seg =>
      let overlap :=
        calculate_overlap spk_seg.start spk_seg.stop sentence_start sentence_end
      if overlap > acc.2 then (some spk_seg.speaker, overlap) else acc)
    (none, 0)).1

/-- The sentence loop of the splitter: equal-width sub-intervals walked
with `current_time`, each kept only when some speaker overlaps it. -/
def splitResult (text_seg : VTTSegment) (overlapping : List VTTSegment)
    (sentences : List (List Char)) : List VTTSegment :=
  let total_duration := text_seg.stop - text_seg.start
  let duration_per_sentence := total_duration / sentences.length
  (sentences.foldl
    (fun (acc : List VTTSegment × ℚ) sentence =>
      let sentence_start := acc.2
      let sentence_end := acc.2 + duration_per_sentence
      match bestSpeakerFor overlapping sentence_start sentence_end with
      | some best_speaker =>
        (acc.1 ++ [{ start := sentence_start, stop := sentence_end,
                     speaker := best_speaker, text := ⟨stripChars sentence⟩ }],
         sentence_end)
      | none => (acc.1, sentence_end))
    ([], text_seg.start)).1

/-- `split_turboscribe_segment_by_speakers`. -/
def split_turboscribe_segment_by_speakers (text_seg : VTTSegment)
    (speaker_segs : List VTTSegment) : List VTTSegment :=
  let overlapping := overlappingSorted text_seg speaker_segs
  if overlapping = [] then [text_seg]
  else if ((overlapping.map VTTSegment.speaker).dedup).length ≤ 1 then [text_seg]
  else
    let full_sentences := fullSentences text_seg.text
    if full_sentences.length ≤ 1 then [text_seg]
    else
      let result := splitResult text_seg overlapping full_sentences
      if result = [] then [text_seg] else result

/-! ## Alignment orchestrator (`align_with_llm`) -/

/-- Mutable state of the `align_with_llm` loop: the output list and the
two statistics dicts. -/
structure AlignState where
  aligned : List AlignedSegment
  stats : RunStats
  llm_stats : LLMStats
deriving DecidableEq, Inhabited

/-- Candidate resolution with the tolerant retry
(`find_speaker_candidates(..., 0.0)` and, when empty,
`find_speaker_candidates(..., 3.0)`); returns the list and the
`used_tolerance` flag. -/
def resolveCandidates (text_seg : VTTSegment) (speaker_vtt : List VTTSegment) :
    List Candidate × Bool :=
  let candidates := find_speaker_candidates text_seg speaker_vtt 0
  if candidates = [] then (find_speaker_candidates text_seg speaker_vtt 3, true)
  else (candidates, false)

/-- `text_vtt[i+1:i+3] if i+1 < len(text_vtt) else []` (the source slices
the original, unexpanded text list with the expanded-loop index). -/
def ctxAfter (text_vtt : List VTTSegment) (i : Nat) : List VTTSegment :=
  if i + 1 < text_vtt.length then (text_vtt.drop (i + 1)).take 2 else []

/-- One iteration of the `for i, text_seg in enumerate(expanded_text_vtt)`
loop.  `setOrder` models the unspecified iteration order of the Python
`set` in `list(set(s.speaker for s in aligned[-10:]))`: it receives the
distinct recent speakers and returns them in the order the `set` happens
to iterate. -/
def alignStep (speaker_vtt text_vtt : List VTTSegment) (client : Option Oracle)
    (setOrder : List String → List String) (st : AlignState)
    (item : Nat × VTTSegment) : AlignState :=
  let i := item.1
  let text_seg := item.2
  -- If text segment already has speaker assigned, use it directly
  if text_seg.speaker ≠ "" then
    { st with
      aligned := st.aligned ++ [{
        start := text_seg.start, stop := text_seg.stop, speaker := text_seg.speaker,
        text := text_seg.text, confidence := 0.95, match_type := "high_confidence",
        reasoning := "Pre-assigned speaker from split", candidates := [] }]
      stats := { st.stats with high_confidence := st.stats.high_confidence + 1 } }
  else
    let resolved := resolveCandidates text_seg speaker_vtt
    let candidates := resolved.1
    let used_tolerance := resolved.2
    if candidates = [] then
      -- No overlap even with tolerance
      let fallback_result := smart_fallback text_seg speaker_vtt (lastN 10 st.aligned)
      let fallbackState : AlignState :=
        { st with
          aligned := st.aligned ++ [{
            start := text_seg.start, stop := text_seg.stop,
            speaker := fallback_result.speaker, text := text_seg.text,
            confidence := fallback_result.confidence, match_type := "fallback",
            reasoning := fallback_result.reasoning, candidates := [] }]
          stats := { st.stats with fallback := st.stats.fallback + 1 } }
      if client.isSome ∧ st.aligned.length ≥ 5 ∧ fallback_result.confidence < 0.6 then
        -- Build pseudo-candidates from recent speakers
        let recent_speakers :=
          (setOrder ((lastN 10 st.aligned).map AlignedSegment.speaker).dedup).take 5
        if recent_speakers ≠ [] then
          let pseudo_candidates : List Candidate := recent_speakers.map (fun spk =>
            { speaker := spk, overlap_duration := 0, overlap_ratio := 0,
              confidence_multiplier := 1, used_tolerance := false })
          let llm_stats1 := { st.llm_stats with attempts := st.llm_stats.attempts + 1 }
          let llm_call := ask_llm_for_speaker text_seg pseudo_candidates
            (lastN 5 st.aligned) (ctxAfter text_vtt i) client llm_stats1
          let llm_result := llm_call.1
          { st with
            aligned := st.aligned ++ [{
              start := text_seg.start, stop := text_seg.stop,
              speaker := llm_result.speaker, text := text_seg.text,
              confidence := llm_result.confidence * 0.85,  -- Penalty for no time overlap
              match_type := "llm_resolved",
              reasoning := "Fallback+LLM: " ++ llm_result.reasoning,
              candidates := pseudo_candidates }]
            stats := { st.stats with llm_resolved := st.stats.llm_resolved + 1 }
            llm_stats := llm_call.2 }
        else fallbackState
      else fallbackState
    else
      -- Classify confidence
      let top_candidate := candidates.headI
      let confidence_mult := top_candidate.confidence_multiplier
      let base_overlap := top_candidate.overlap_ratio
      if candidates.length = 1 ∧ base_overlap > 0.8 then
        -- High confidence: single speaker, strong overlap
        let final_conf := min 0.99 (base_overlap * confidence_mult * 1.1)
        { st with
          aligned := st.aligned ++ [{
            start := text_seg.start, stop := text_seg.stop,
            speaker := top_candidate.speaker, text := text_seg.text,
            confidence := final_conf, match_type := "high_confidence",
            reasoning := "Single speaker with " ++ formatPercent base_overlap ++
              " overlap" ++ (if used_tolerance then " (tolerance)" else ""),
            candidates := candidates }]
          stats := { st.stats with high_confidence := st.stats.high_confidence + 1 } }
      else if candidates.length > 1 ∧ (candidates.getD 1 default).overlap_ratio > 0.15 then
        -- Ambiguous: multiple speakers with significant overlap: use LLM
        let llm_stats1 := { st.llm_stats with attempts := st.llm_stats.attempts + 1 }
        let context_before := lastN 5 st.aligned
        let context_after := ctxAfter text_vtt i
        let llm_call := ask_llm_for_speaker text_seg candidates context_before
          context_after client llm_stats1
        let llm_result := llm_call.1
        { st with
          aligned := st.aligned ++ [{
            start := text_seg.start, stop := text_seg.stop,
            speaker := llm_result.speaker, text := text_seg.text,
            confidence := llm_result.confidence, match_type := "llm_resolved",
            reasoning := llm_result.reasoning, candidates := candidates }]
          stats := { st.stats with llm_resolved := st.stats.llm_resolved + 1 }
          llm_stats := llm_call.2 }
      else
        -- Medium confidence: use top candidate
        let final_conf := base_overlap * confidence_mult
        { st with
          aligned := st.aligned ++ [{
            start := text_seg.start, stop := text_seg.stop,
            speaker := top_candidate.speaker, text := text_seg.text,
            confidence := final_conf, match_type := "high_confidence",
            reasoning := "Dominant speaker with " ++ formatPercent base_overlap ++
              " overlap" ++ (if used_tolerance then
                " (tolerance, ×" ++ formatFixed 2 confidence_mult ++ ")" else ""),
            candidates := candidates }]
          stats := { st.stats with high_confidence := st.stats.high_confidence + 1 } }

/-- The orchestrator loop over the enumerated expanded segment list. -/
def alignLoop (speaker_vtt text_vtt : List VTTSegment) (client : Option Oracle)
    (setOrder : List String → List String) (st : AlignState)
    (items : List (Nat × VTTSegment)) : AlignState :=
  items.foldl (alignStep speaker_vtt text_vtt client setOrder) st

/-- The split-expanded text sequence the orchestrator iterates over. -/
def expandedText (speaker_vtt text_vtt : List VTTSegment) : List VTTSegment :=
  text_vtt.flatMap (fun text_seg =>
    split_turboscribe_segment_by_speakers text_seg speaker_vtt)

/-- `align_with_llm`: expansion via the splitter, then the per-segment
state machine; returns the aligned list (the source's statistics are only
printed, and `if not aligned: return []` returns the same empty list). -/
def align_with_llm (speaker_vtt text_vtt : List VTTSegment) (client : Option Oracle)
    (setOrder : List String → List String) : List AlignedSegment :=
  (alignLoop speaker_vtt text_vtt client setOrder
    { aligned := [], stats := ⟨0, 0, 0⟩, llm_stats := ⟨0, 0, 0⟩ }
    (expandedText speaker_vtt text_vtt).enum).aligned

/-! ## Timeline parser: shared string scanning helpers -/

/-- Split a character list at every occurrence of `sep`
(Python `str.split(sep)` for a single-character separator). -/
def splitChar (sep : Char) : List Char → List (List Char)
  | [] => [[]]
  | c :: cs =>
    match splitChar sep cs with
    | [] => [[]]
    | p :: ps => if c = sep then [] :: p :: ps else (c :: p) :: ps

/-- Numeric value of a digit character. -/
def digitVal (c : Char) : Nat := c.toNat - 48

/-- Python `int()` on a digit string. -/
def parseDigits (l : List Char) : Nat := l.foldl (fun n c => n * 10 + digitVal c) 0

/-- Python `float()` on a decimal digit string such as `"02.500"`. -/
def parseFloat (l : List Char) : ℚ :=
  match splitChar '.' l with
  | [ip] => (parseDigits ip : ℚ)
  | [ip, fp] => (parseDigits ip : ℚ) + (parseDigits fp : ℚ) / (10 : ℚ) ^ fp.length
  | _ => 0

/-- `parse_timestamp`: `h*3600 + m*60 + s` on three `':'`-separated
components, `0.0` otherwise. -/
def parse_timestamp (ts : String) : ℚ :=
  match splitChar ':' ts.data with
  | [h, m, s] => (parseDigits h : ℚ) * 3600 + (parseDigits m : ℚ) * 60 + parseFloat s
  | _ => 0

/-- Python `pat in s` substring containment. -/
def containsSub (pat : List Char) : List Char → Bool
  | [] => pat.isPrefixOf ([] : List Char)
  | c :: cs => pat.isPrefixOf (c :: cs) || containsSub pat cs

/-- The `'-->'` token of cue timestamp lines. -/
def arrow : List Char := ['-', '-', '>']

/-- `str.isdigit()`: non-empty and all digits. -/
def isDigitLine (l : List Char) : Bool := l ≠ [] && l.all Char.isDigit

/-- Take exactly `n` digit characters. -/
def takeDigits : Nat → List Char → Option (List Char × List Char)
  | 0, l => some ([], l)
  | _ + 1, [] => none
  | n + 1, c :: cs =>
    if c.isDigit then
      match takeDigits n cs with
      | some (ds, rest) => some (c :: ds, rest)
      | none => none
    else none

/-- Match `\d{2}:\d{2}:\d{2}\.\d{3}` at the head of the list, returning
the matched characters and the remainder. -/
def matchTsAt (l : List Char) : Option (List Char × List Char) := do
  let (d1, r1) ← takeDigits 2 l
  match r1 with
  | ':' :: r2 =>
    let (d2, r3) ← takeDigits 2 r2
    match r3 with
    | ':' :: r4 =>
      let (d3, r5) ← takeDigits 2 r4
      match r5 with
      | '.' :: r6 =>
        let (d4, r7) ← takeDigits 3 r6
        pure (d1 ++ ':' :: d2 ++ ':' :: d3 ++ '.' :: d4, r7)
      | _ => none
    | _ => none
  | _ => none

/-- Match the cue-timestamp regex
`(\d{2}:\d{2}:\d{2}\.\d{3})\s*-->\s*(\d{2}:\d{2}:\d{2}\.\d{3})` at the
head of the list, returning the two captured groups. -/
def matchTsPairAt (l : List Char) : Option (String × String) := do
  let (t1, r1) ← matchTsAt l
  match r1.dropWhile isSpace with
  | '-' :: '-' :: '>' :: r3 =>
    let (t2, _) ← matchTsAt (r3.dropWhile isSpace)
    pure ((⟨t1⟩ : String), (⟨t2⟩ : String))
  | _ => none

/-- `re.search` of the cue-timestamp pair: leftmost match. -/
def searchTsPair : List Char → Option (String × String)
  | [] => none
  | c :: cs =>
    match matchTsPairAt (c :: cs) with
    | some r => some r
    | none => searchTsPair cs

/-- Scanner for `re.split(r'\n\n+', content)`.  `inSep = true` means the
scanner is consuming the extra newlines of a separator run. -/
def splitBlocksGo : Bool → List Char → List (List Char)
  | _, [] => [[]]
  | false, '\n' :: '\n' :: rest => [] :: splitBlocksGo true rest
  | true, '\n' :: rest => splitBlocksGo true rest
  | _, c :: cs => headCons c (splitBlocksGo false cs)

/-- `re.split(r'\n\n+', content)`: blocks separated by runs of two or
more newlines. -/
def splitBlocks (l : List Char) : List (List Char) := splitBlocksGo false l

/-- The `timestamp_line` variable of the block loop: the loop overwrites
it, so it ends as the last line containing `'-->'`. -/
def blockTimestampLine (ls : List (List Char)) : Option (List Char) :=
  (ls.filter (fun line => containsSub arrow line)).getLast?

/-- The `text_lines` list of the block loop: stripped non-blank non-index
lines that do not carry the timestamp arrow. -/
def blockTextLines (ls : List (List Char)) : List (List Char) :=
  ls.filterMap (fun line =>
    if containsSub arrow line then none
    else if stripChars line ≠ [] ∧ ¬ isDigitLine (stripChars line) then
      some (stripChars line)
    else none)

/-- `re.match(r'^([^:]+):\s*(.*)$', first_line)` restricted to group 1:
the characters before the first colon, when at least one exists. -/
def speakerBeforeColon (l : List Char) : Option (List Char) :=
  let pre := l.takeWhile (fun c => ¬ c = ':')
  if pre = [] ∨ pre = l then none else some pre

/-! ## `parse_vtt_with_speakers` -/

/-- Processing of one block of the speaker-labelled file. -/
def speakerBlock (block : List Char) : Option VTTSegment :=
  if stripChars block = [] ∨ stripChars block = "WEBVTT".data then none
  else
    let lines := splitChar '\n' (stripChars block)
    match blockTimestampLine lines, blockTextLines lines with
    | some timestamp_line, first_line :: _ =>
      match searchTsPair timestamp_line with
      | some (g1, g2) =>
        let speaker : String :=
          match speakerBeforeColon first_line with
          | some pre => (⟨stripChars pre⟩ : String)
          | none => "Unknown"
        -- Store empty text - the speaker file text is unreliable
        some { start := parse_timestamp g1, stop := parse_timestamp g2,
               speaker := speaker, text := "" }
      | none => none
    | _, _ => none

/-- `parse_vtt_with_speakers` over the file content. -/
def parse_vtt_with_speakers (content : String) : List VTTSegment :=
  (splitBlocks content.data).filterMap speakerBlock

/-! ## `parse_turboscribe_format` and format detection -/

/-- Match `(\d{1,2}):` at the head (greedy two digits first, then one),
returning the numeric value and the remainder after the colon. -/
def matchD12Colon : List Char → Option (Nat × List Char)
  | a :: b :: c :: r =>
    if a.isDigit && b.isDigit && c = ':' then some (digitVal a * 10 + digitVal b, r)
    else if a.isDigit && b = ':' then some (digitVal a, c :: r)
    else none
  | a :: b :: r => if a.isDigit && b = ':' then some (digitVal a, r) else none
  | _ => none

/-- Match `\d{2}` at the head, returning the value and the remainder. -/
def matchD2 : List Char → Option (Nat × List Char)
  | a :: b :: r =>
    if a.isDigit && b.isDigit then some (digitVal a * 10 + digitVal b, r) else none
  | _ => none

/-- Match the optional `:?(\d{2})?` tail of a TurboScribe time: the colon
is consumed only together with a two-digit group. -/
def matchOptColonD2 (l : List Char) : Option Nat × List Char :=
  match l with
  | ':' :: r =>
    match matchD2 r with
    | some (v, r2) => (some v, r2)
    | none => (none, l)
  | _ => (none, l)

/-- Match `(\d{1,2}):(\d{2}):?(\d{2})?`, the time groups of the
TurboScribe marker. -/
def matchTime (l : List Char) : Option ((Nat × Nat × Option Nat) × List Char) := do
  let (g2, r1) ← matchD12Colon l
  let (g3, r2) ← matchD2 r1
  let og := matchOptColonD2 r2
  pure ((g2, g3, og.1), og.2)

/-- The time arithmetic of `parse_turboscribe_format` (lines 143-152):
with a third group the components are `h:m:s`, otherwise `m:s`. -/
def turbo_time : Nat × Nat × Option Nat → ℚ
  | (g2, g3, some g4) => (g2 : ℚ) * 3600 + (g3 : ℚ) * 60 + (g4 : ℚ)
  | (g2, g3, none) => 0 * 3600 + (g2 : ℚ) * 60 + (g3 : ℚ)

/-- One TurboScribe speaker marker found by `re.finditer`. -/
structure TurboMatch where
  startGroups : Nat × Nat × Option Nat
  endGroups : Nat × Nat × Option Nat
  mstart : Nat
  mend : Nat
deriving DecidableEq, Inhabited

/-- Match the full marker regex
`\[Speaker\s+(\d+)\]\s*\((\d{1,2}):(\d{2}):?(\d{2})?\s*-\s*(\d{1,2}):(\d{2}):?(\d{2})?\)`
at the head of the list; the speaker-number group only has to exist (its
value is never used, the source assigns `speaker=""`). -/
def matchTurboAt (l : List Char) :
    Option ((Nat × Nat × Option Nat) × (Nat × Nat × Option Nat) × List Char) := do
  let r0 ← if "[Speaker".data.isPrefixOf l then some (l.drop 8) else none
  let r1 := r0.dropWhile isSpace
  let _ ← if r1.length < r0.length then some () else none
  let r2 := r1.dropWhile Char.isDigit
  let _ ← if r2.length < r1.length then some () else none
  let r3 ← match r2 with | ']' :: r => some r | _ => none
  let r4 := r3.dropWhile isSpace
  let r5 ← match r4 with | '(' :: r => some r | _ => none
  let (t1, r6) ← matchTime r5
  let r7 := r6.dropWhile isSpace
  let r8 ← match r7 with | '-' :: r => some r | _ => none
  let r9 := r8.dropWhile isSpace
  let (t2, r10) ← matchTime r9
  let r11 ← match r10 with | ')' :: r => some r | _ => none
  pure (t1, t2, r11)

/-- `re.finditer` of the marker regex: leftmost non-overlapping matches
with their absolute start/end offsets.  Recursion is on a fuel counter
(each step consumes at least one character, so fuel `l.length` in
`findTurbo` is always enough). -/
def findTurboFuel : Nat → List Char → Nat → List TurboMatch
  | 0, _, _ => []
  | _ + 1, [], _ => []
  | fuel + 1, c :: cs, pos =>
    match matchTurboAt (c :: cs) with
    | some (t1, t2, rest) =>
      let consumed := (c :: cs).length - rest.length
      { startGroups := t1, endGroups := t2, mstart := pos, mend := pos + consumed } ::
        findTurboFuel fuel (cs.drop (consumed - 1)) (pos + consumed)
    | none => findTurboFuel fuel cs (pos + 1)

/-- `re.finditer` of the marker regex over the whole content. -/
def findTurbo (l : List Char) (pos : Nat) : List TurboMatch :=
  findTurboFuel l.length l pos

/-- The literal opening of the `(This file is longer than.*?)` marker. -/
def longerMarker : List Char := "(This file is longer than".data

/-- `re.sub(r'\(This file is longer than.*?\)', '', text, flags=DOTALL)`:
each leftmost occurrence of the literal prefix up to the next `')'` is
removed.  Recursion is on a fuel counter (each step consumes at least one
character, so fuel `l.length` in `removeLonger` is always enough). -/
def removeLongerFuel : Nat → List Char → List Char
  | 0, l => l
  | _ + 1, [] => []
  | fuel + 1, c :: cs =>
    if longerMarker.isPrefixOf (c :: cs) then
      match ((c :: cs).drop longerMarker.length).dropWhile (fun d => ¬ d = ')') with
      | ')' :: rest2 => removeLongerFuel fuel rest2
      | _ => c :: removeLongerFuel fuel cs
    else c :: removeLongerFuel fuel cs

/-- The length-limit notice removal applied by `parse_turboscribe_format`. -/
def removeLonger (l : List Char) : List Char := removeLongerFuel l.length l

/-- The text-slicing and appending loop of `parse_turboscribe_format`:
each marker's text runs to the next marker (or end of file), is stripped,
cleaned of the length-limit notice, stripped again, and appended only
when non-empty. -/
def turboSegs (content : List Char) : List TurboMatch → List VTTSegment
  | [] => []
  | m :: rest =>
    let text_end : Nat :=
      match rest with
      | m2 :: _ => m2.mstart
      | [] => content.length
    let text :=
      stripChars (removeLonger (stripChars
        ((content.drop m.mend).take (text_end - m.mend))))
    (if text ≠ [] then
      [{ start := turbo_time m.startGroups, stop := turbo_time m.endGroups,
         speaker := "", text := (⟨text⟩ : String) }]
     else []) ++ turboSegs content rest

/-- `parse_turboscribe_format` over the file content. -/
def parse_turboscribe_format (content : String) : List VTTSegment :=
  turboSegs content.data (findTurbo content.data 0)

/-- Match the detection hint regex `\[Speaker\s+\d+\]\s*\(\d{1,2}:\d{2}`
at the head of the list. -/
def matchHintAt (l : List Char) : Bool :=
  (do
    let r0 ← if "[Speaker".data.isPrefixOf l then some (l.drop 8) else none
    let r1 := r0.dropWhile isSpace
    let _ ← if r1.length < r0.length then some () else none
    let r2 := r1.dropWhile Char.isDigit
    let _ ← if r2.length < r1.length then some () else none
    let r3 ← match r2 with | ']' :: r => some r | _ => none
    let r4 := r3.dropWhile isSpace
    let r5 ← match r4 with | '(' :: r => some r | _ => none
    let (_, r6) ← matchD12Colon r5
    let (_, _) ← matchD2 r6
    pure () : Option Unit).isSome

/-- `re.search` of the detection hint. -/
def searchHint : List Char → Bool
  | [] => false
  | c :: cs => matchHintAt (c :: cs) || searchHint cs

/-- `detect_vtt_format` on the first 1000 characters of the content,
plus the `.txt`-extension rule. -/
def detect_vtt_format (filepath content : String) : String :=
  let head1000 := content.data.take 1000
  if containsSub "[Speaker".data head1000 && searchHint head1000 then "turboscribe"
  else if containsSub "WEBVTT".data head1000 || containsSub arrow head1000 then "standard"
  else if ".txt".data.isSuffixOf filepath.data && containsSub "[Speaker".data head1000 then
    "turboscribe"
  else "standard"

/-! ## `parse_vtt_without_speakers` -/

/-- `' '.join(text_lines)`. -/
def joinSpace : List (List Char) → List Char
  | [] => []
  | [l] => l
  | l :: ls => l ++ ' ' :: joinSpace ls

/-- `re.match(r'^\[SPEAKER_\d+\]\s*(.*)$', full_text)` restricted to
group 1. -/
def speakerTagRest (l : List Char) : Option (List Char) :=
  if "[SPEAKER_".data.isPrefixOf l then
    let after := l.drop 9
    let rest := after.dropWhile Char.isDigit
    if rest.length < after.length then
      match rest with
      | ']' :: r2 => some (r2.dropWhile isSpace)
      | _ => none
    else none
  else none

/-- Processing of one block of the text-reliable file in the standard
layout.  Note: the segment is appended unconditionally, with no emptiness
check on the resulting text. -/
def textBlock (block : List Char) : Option VTTSegment :=
  if stripChars block = [] ∨ stripChars block = "WEBVTT".data then none
  else
    let lines := splitChar '\n' (stripChars block)
    match blockTimestampLine lines, blockTextLines lines with
    | some timestamp_line, first_line :: more =>
      match searchTsPair timestamp_line with
      | some (g1, g2) =>
        let full_text := stripChars (joinSpace (first_line :: more))
        let text : List Char :=
          match speakerTagRest full_text with
          | some r => stripChars r
          | none => full_text
        some { start := parse_timestamp g1, stop := parse_timestamp g2,
               speaker := "", text := (⟨text⟩ : String) }
      | none => none
    | _, _ => none

/-- `parse_vtt_without_speakers`: format detection, then either the
TurboScribe parser or the standard block parser. -/
def parse_vtt_without_speakers (filepath content : String) : List VTTSegment :=
  if detect_vtt_format filepath content = "turboscribe" then
    parse_turboscribe_format content
  else (splitBlocks content.data).filterMap textBlock

/-! ## Claim C7: algebra of `calculate_overlap` -/

/-- C7: for intervals with `end ≥ start`, `calculate_overlap` equals
`max 0 (min aEnd bEnd - max aStart bStart)`; it is commutative, equals the
duration on identical intervals, and is `0` on disjoint or touching
intervals. -/
theorem claim_C7 (aS aE bS bE : ℚ) (ha : aS ≤ aE) :
    calculate_overlap aS aE bS bE = max 0 (min aE bE - max aS bS) ∧
    calculate_overlap aS aE bS bE = calculate_overlap bS bE aS aE ∧
    calculate_overlap aS aE aS aE = aE - aS ∧
    (aE ≤ bS ∨ bE ≤ aS → calculate_overlap aS aE bS bE = 0) := by
  refine ⟨rfl, ?_, ?_, ?_⟩
  · simp only [calculate_overlap, min_comm aE bE, max_comm aS bS]
  · simp only [calculate_overlap, min_self, max_self]
    exact max_eq_right (sub_nonneg.2 ha)
  · intro h
    simp only [calculate_overlap]
    refine max_eq_left (sub_nonpos.2 ?_)
    rcases h with h | h
    · exact le_trans (min_le_left _ _) (le_trans h (le_max_right _ _))
    · exact le_trans (min_le_right _ _) (le_trans h (le_max_left _ _))

/-- Witness for C7 at a concrete disjoint pair of intervals. -/
theorem claim_C7_witness :
    (0 : ℚ) ≤ 1 ∧
    (calculate_overlap 0 1 2 3 = max 0 (min 1 3 - max 0 2) ∧
     calculate_overlap 0 1 2 3 = calculate_overlap 2 3 0 1 ∧
     calculate_overlap 0 1 0 1 = 1 - 0 ∧
     ((1 : ℚ) ≤ 2 ∨ (3 : ℚ) ≤ 0 → calculate_overlap 0 1 2 3 = 0)) :=
  ⟨by norm_num, claim_C7 0 1 2 3 (by norm_num)⟩

/-! ## Claim C4: timestamp conversion -/

theorem splitChar_cons (sep c : Char) (cs : List Char) :
    splitChar sep (c :: cs) =
      match splitChar sep cs with
      | [] => [[]]
      | p :: ps => if c = sep then [] :: p :: ps else (c :: p) :: ps := rfl

theorem splitChar_ne_nil (sep : Char) (l : List Char) : splitChar sep l ≠ [] := by
  induction l with
  | nil => simp [splitChar]
  | cons c cs ih =>
    rw [splitChar_cons]
    cases h : splitChar sep cs with
    | nil => exact absurd h ih
    | cons p ps =>
      dsimp only
      split <;> simp

theorem splitChar_of_not_mem {sep : Char} {l : List Char} (h : sep ∉ l) :
    splitChar sep l = [l] := by
  induction l with
  | nil => rfl
  | cons c cs ih =>
    simp only [List.mem_cons, not_or] at h
    rw [splitChar_cons, ih h.2]
    dsimp only
    rw [if_neg (show ¬ c = sep from fun hc => h.1 hc.symm)]

theorem splitChar_append {sep : Char} {l1 : List Char} (l2 : List Char)
    (h : sep ∉ l1) : splitChar sep (l1 ++ sep :: l2) = l1 :: splitChar sep l2 := by
  induction l1 with
  | nil =>
    rw [List.nil_append, splitChar_cons]
    cases hs : splitChar sep l2 with
    | nil => exact absurd hs (splitChar_ne_nil sep l2)
    | cons p ps =>
      dsimp only
      simp
  | cons c cs ih =>
    simp only [List.mem_cons, not_or] at h
    rw [List.cons_append, splitChar_cons, ih h.2]
    dsimp only
    rw [if_neg (show ¬ c = sep from fun hc => h.1 hc.symm)]

/-- C4: a three-component `H:MM:SS[.mmm]` timestamp string parses to
`h*3600 + m*60 + s` seconds, and the two-component `MM:SS` TurboScribe
time groups convert to `m*60 + s` (three-component groups to
`h*3600 + m*60 + s`). -/
theorem claim_C4 :
    (∀ hs ms ss : List Char, ':' ∉ hs → ':' ∉ ms → ':' ∉ ss →
      parse_timestamp ⟨hs ++ ':' :: (ms ++ ':' :: ss)⟩ =
        (parseDigits hs : ℚ) * 3600 + (parseDigits ms : ℚ) * 60 + parseFloat ss) ∧
    (∀ m s : Nat, turbo_time (m, s, none) = (m : ℚ) * 60 + (s : ℚ)) ∧
    (∀ h m s : Nat,
      turbo_time (h, m, some s) = (h : ℚ) * 3600 + (m : ℚ) * 60 + (s : ℚ)) := by
  refine ⟨?_, ?_, ?_⟩
  · intro hs ms ss h1 h2 h3
    simp only [parse_timestamp]
    rw [splitChar_append _ h1, splitChar_append _ h2, splitChar_of_not_mem h3]
  · intro m s
    simp [turbo_time]
  · intro h m s
    simp [turbo_time]

/-- Witness for C4 at the concrete timestamp `"01:02:03.500"` and the
TurboScribe groups `(2,3)` and `(1,2,3)`. -/
theorem claim_C4_witness :
    ':' ∉ ['0', '1'] ∧ ':' ∉ ['0', '2'] ∧ ':' ∉ ['0', '3', '.', '5'] ∧
    parse_timestamp ⟨['0', '1'] ++ ':' :: (['0', '2'] ++ ':' :: ['0', '3', '.', '5'])⟩ =
      (parseDigits ['0', '1'] : ℚ) * 3600 + (parseDigits ['0', '2'] : ℚ) * 60 +
        parseFloat ['0', '3', '.', '5'] ∧
    turbo_time (2, 3, none) = (2 : ℚ) * 60 + 3 ∧
    turbo_time (1, 2, some 3) = (1 : ℚ) * 3600 + (2 : ℚ) * 60 + 3 := by
  refine ⟨by decide, by decide, by decide, ?_, ?_, ?_⟩
  · exact claim_C4.1 ['0', '1'] ['0', '2'] ['0', '3', '.', '5']
      (by decide) (by decide) (by decide)
  · simpa using claim_C4.2.1 2 3
  · simpa using claim_C4.2.2 1 2 3

/-! ## Claim C10: the splitter never returns an empty list -/

/-- C10: `split_turboscribe_segment_by_speakers` always returns a
non-empty list; in particular, when the sentence loop drops every
sentence (empty `splitResult`), the original segment is returned
unchanged. -/
theorem claim_C10 (text_seg : VTTSegment) (speaker_segs : List VTTSegment) :
    split_turboscribe_segment_by_speakers text_seg speaker_segs ≠ [] ∧
    (splitResult text_seg (overlappingSorted text_seg speaker_segs)
        (fullSentences text_seg.text) = [] →
      split_turboscribe_segment_by_speakers text_seg speaker_segs = [text_seg]) := by
  constructor
  · simp only [split_turboscribe_segment_by_speakers]
    split_ifs with h1 h2 h3 h4 <;> simp_all
  · intro hres
    simp only [split_turboscribe_segment_by_speakers, hres]
    split_ifs <;> rfl

/-- Witness for C10: a segment with empty text (so no sentences and an
empty `splitResult`) is returned unchanged. -/
theorem claim_C10_witness :
    split_turboscribe_segment_by_speakers ⟨0, 1, "", ""⟩ [] ≠ [] ∧
    split_turboscribe_segment_by_speakers ⟨0, 1, "", ""⟩ [] = [⟨0, 1, "", ""⟩] :=
  ⟨(claim_C10 ⟨0, 1, "", ""⟩ []).1,
   (claim_C10 ⟨0, 1, "", ""⟩ []).2 (by with_unfolding_all rfl)⟩

/-! ## Claim C2: smart fallback with no nearby speakers -/

/-- C2 (amended): when no speaker segment starts within the 10-second
window, the smart fallback resolves via strategy 3 (previous aligned
speaker, 0.35), 4 (global nearest, 0.30) or 5 (sentinel, 0.0), so the
confidence is at most 0.35; when additionally no prior aligned segment
exists it resolves via strategy 4 or 5 and the confidence is at most
0.30. -/
theorem claim_C2 (text_seg : VTTSegment) (speaker_vtt : List VTTSegment)
    (context_before : List AlignedSegment)
    (h : ∀ s ∈ speaker_vtt, ¬ (|s.start - text_seg.start| < 10)) :
    (smart_fallback text_seg speaker_vtt context_before).confidence ≤ 0.35 ∧
    (context_before = [] →
      (smart_fallback text_seg speaker_vtt context_before).confidence ≤ 0.30 ∧
      ((smart_fallback text_seg speaker_vtt context_before).reasoning = "Global nearest" ∨
       (smart_fallback text_seg speaker_vtt context_before).reasoning = "No speakers")) := by
  have hfil : speaker_vtt.filter (fun s => |s.start - text_seg.start| < (10 : ℚ)) = [] :=
    List.filter_eq_nil_iff.mpr (by simpa using h)
  simp only [smart_fallback, hfil, argminKey]
  constructor
  · split_ifs with h1 h2 <;>
      cases hmin : argminKey
        (fun s => min |s.start - text_seg.start| |s.stop - text_seg.stop|) speaker_vtt <;>
      simp_all [argminKey] <;> norm_num
  · intro hctx
    split_ifs with h1 h2 <;> simp_all <;>
      cases hmin : argminKey
        (fun s => min |s.start - text_seg.start| |s.stop - text_seg.stop|) speaker_vtt <;>
      simp_all [argminKey] <;> norm_num

/-- Witness for C2 at a segment far from the only speaker segment and
with no prior aligned context. -/
theorem claim_C2_witness :
    (smart_fallback ⟨20, 21, "", "x"⟩ [⟨100, 101, "Alice", ""⟩] []).confidence ≤ 0.35 ∧
    (smart_fallback ⟨20, 21, "", "x"⟩ [⟨100, 101, "Alice", ""⟩] []).confidence ≤ 0.30 ∧
    ((smart_fallback ⟨20, 21, "", "x"⟩ [⟨100, 101, "Alice", ""⟩] []).reasoning =
        "Global nearest" ∨
      (smart_fallback ⟨20, 21, "", "x"⟩ [⟨100, 101, "Alice", ""⟩] []).reasoning =
        "No speakers") :=
  have happ := claim_C2 ⟨20, 21, "", "x"⟩ [⟨100, 101, "Alice", ""⟩] []
    (of_decide_eq_true (by with_unfolding_all rfl))
  ⟨happ.1, (happ.2 rfl).1, (happ.2 rfl).2⟩

/-- Counterexample to C2 as stated: one prior aligned segment (fewer than
5) and no speaker segment within 10 seconds, yet strategy 3 fires with
confidence 0.35 > 0.30. -/
theorem claim_C2_cex :
    (∀ s ∈ [(⟨100, 101, "Alice", ""⟩ : VTTSegment)],
        ¬ (|s.start - (⟨0, 1, "", "x"⟩ : VTTSegment).start| < 10)) ∧
    [(⟨0, 0, "Bob", "", 0, "", "", []⟩ : AlignedSegment)].length < 5 ∧
    (smart_fallback ⟨0, 1, "", "x"⟩ [⟨100, 101, "Alice", ""⟩]
        [⟨0, 0, "Bob", "", 0, "", "", []⟩]).confidence = 0.35 ∧
    ¬ ((smart_fallback ⟨0, 1, "", "x"⟩ [⟨100, 101, "Alice", ""⟩]
        [⟨0, 0, "Bob", "", 0, "", "", []⟩]).confidence ≤ 0.30) ∧
    (smart_fallback ⟨0, 1, "", "x"⟩ [⟨100, 101, "Alice", ""⟩]
        [⟨0, 0, "Bob", "", 0, "", "", []⟩]).reasoning = "Previous speaker" :=
  of_decide_eq_true (by with_unfolding_all rfl)

/-! ## Claim C5: oracle adapter fallback behaviour -/

/-- C5: `ask_llm_for_speaker` is total and always answers with a speaker
from the supplied non-empty candidate list; with no client it returns the
top candidate at its overlap ratio and bumps the degraded-fallback
counter; an oracle answer naming an unlisted speaker is discarded in
favour of the top candidate at fixed confidence 0.7; a transport/parsing
failure yields the top candidate at `top.overlap_ratio * 0.8`. -/
theorem claim_C5 (text_seg : VTTSegment) (candidates : List Candidate)
    (context_before : List AlignedSegment) (context_after : List VTTSegment)
    (client : Option Oracle) (llm_stats : LLMStats) (hne : candidates ≠ []) :
    let call := ask_llm_for_speaker text_seg candidates context_before context_after
      client llm_stats
    call.1.speaker ∈ candidates.map Candidate.speaker ∧
    (client = none →
      call.1 = { speaker := candidates.headI.speaker,
                 confidence := candidates.headI.overlap_ratio,
                 reasoning := "LLM not available, using top time-overlap candidate" } ∧
      call.2.fallbacks = llm_stats.fallbacks + 1) ∧
    (∀ oracle e, client = some oracle →
      oracle text_seg candidates context_before context_after = Except.error e →
      call.1 = { speaker := candidates.headI.speaker,
                 confidence := candidates.headI.overlap_ratio * 0.8,
                 reasoning := "LLM error, fallback to top candidate" }) ∧
    (∀ oracle result, client = some oracle →
      oracle text_seg candidates context_before context_after = Except.ok result →
      result.speaker ∉ candidates.map Candidate.speaker →
      call.1 = { speaker := candidates.headI.speaker, confidence := 0.7,
                 reasoning := "LLM returned invalid speaker, using top candidate" } ∧
      call.2.actual_calls = llm_stats.actual_calls + 1) := by
  have hhead : candidates.headI ∈ candidates := by
    cases candidates with
    | nil => exact absurd rfl hne
    | cons c cs => exact List.mem_cons_self c cs
  have hheadmem : candidates.headI.speaker ∈ candidates.map Candidate.speaker :=
    List.mem_map_of_mem Candidate.speaker hhead
  cases client with
  | none =>
    refine ⟨hheadmem, fun _ => ⟨rfl, rfl⟩, ?_, ?_⟩
    · intro oracle e hc
      exact absurd hc (by simp)
    · intro oracle result hc
      exact absurd hc (by simp)
  | some oracle =>
    cases hq : oracle text_seg candidates context_before context_after with
    | error e =>
      refine ⟨?_, by simp, ?_, ?_⟩
      · simp only [ask_llm_for_speaker, hq]
        exact hheadmem
      · intro oracle2 e2 hc hq2
        cases Option.some.inj hc
        simp only [ask_llm_for_speaker, hq]
      · intro oracle2 result hc hq2
        cases Option.some.inj hc
        rw [hq] at hq2
        exact absurd hq2 (by simp)
    | ok result =>
      by_cases hv : candidates.all (fun c => ¬ c.speaker = result.speaker)
      · refine ⟨?_, by simp, ?_, ?_⟩
        · simp only [ask_llm_for_speaker, hq, hv, if_pos]
          simpa using hheadmem
        · intro oracle2 e2 hc hq2
          cases Option.some.inj hc
          rw [hq] at hq2
          exact absurd hq2 (by simp)
        · intro oracle2 result2 hc hq2 _
          cases Option.some.inj hc
          rw [hq] at hq2
          cases Except.ok.inj hq2
          constructor
          · simp only [ask_llm_for_speaker, hq, hv, if_pos]
          · simp only [ask_llm_for_speaker, hq, hv, if_pos]
      · refine ⟨?_, by simp, ?_, ?_⟩
        · simp only [ask_llm_for_speaker, hq, hv, if_neg]
          simp only [List.all_eq_true, not_forall] at hv
          obtain ⟨c, hc, hcs⟩ := hv
          simp only [Decidable.not_not, decide_eq_true_eq] at hcs
          have : c.speaker ∈ candidates.map Candidate.speaker :=
            List.mem_map_of_mem Candidate.speaker (by simpa using hc)
          rwa [hcs] at this
        · intro oracle2 e2 hc hq2
          cases Option.some.inj hc
          rw [hq] at hq2
          exact absurd hq2 (by simp)
        · intro oracle2 result2 hc hq2 hnm
          cases Option.some.inj hc
          rw [hq] at hq2
          cases Except.ok.inj hq2
          exfalso
          apply hnm
          simp only [List.all_eq_true, not_forall] at hv
          obtain ⟨c, hc, hcs⟩ := hv
          simp only [Decidable.not_not, decide_eq_true_eq] at hcs
          have : c.speaker ∈ candidates.map Candidate.speaker :=
            List.mem_map_of_mem Candidate.speaker (by simpa using hc)
          rwa [hcs] at this

/-- Witness for C5: the no-client mode on a concrete single-candidate
list. -/
theorem claim_C5_witness :
    (ask_llm_for_speaker ⟨0, 1, "", "t"⟩ [⟨"Alice", 2, 0.5, 1, false⟩] [] []
        none ⟨0, 0, 0⟩).1.speaker ∈
      ([⟨"Alice", 2, 0.5, 1, false⟩] : List Candidate).map Candidate.speaker ∧
    (ask_llm_for_speaker ⟨0, 1, "", "t"⟩ [⟨"Alice", 2, 0.5, 1, false⟩] [] []
        none ⟨0, 0, 0⟩).1 =
      { speaker := ([⟨"Alice", 2, 0.5, 1, false⟩] : List Candidate).headI.speaker,
        confidence := ([⟨"Alice", 2, 0.5, 1, false⟩] : List Candidate).headI.overlap_ratio,
        reasoning := "LLM not available, using top time-overlap candidate" } ∧
    (ask_llm_for_speaker ⟨0, 1, "", "t"⟩ [⟨"Alice", 2, 0.5, 1, false⟩] [] []
        none ⟨0, 0, 0⟩).2.fallbacks = (⟨0, 0, 0⟩ : LLMStats).fallbacks + 1 :=
  have happ := claim_C5 ⟨0, 1, "", "t"⟩ [⟨"Alice", 2, 0.5, 1, false⟩] [] [] none
    ⟨0, 0, 0⟩ (by simp)
  ⟨happ.1, (happ.2.1 rfl).1, (happ.2.1 rfl).2⟩

/-! ## Claim C1: the orchestrator rows for a strong top candidate -/

/-- C1 (amended): when the resolved candidate list is non-empty and the
top overlap ratio exceeds 0.8, the segment is accepted as
`high_confidence` with the top speaker only when the candidate is unique
(confidence `min(0.99, ratio*mult*1.1)`) or the second-ranked ratio is at
most 0.15 (confidence `ratio*mult`, no bonus); with a second-ranked ratio
above 0.15 the segment is routed to the oracle (`llm_resolved`) even
though the top ratio exceeds 0.8. -/
theorem claim_C1 (speaker_vtt text_vtt : List VTTSegment) (client : Option Oracle)
    (setOrder : List String → List String) (st : AlignState) (i : Nat)
    (text_seg : VTTSegment) (hsp : text_seg.speaker = "")
    (hne : (resolveCandidates text_seg speaker_vtt).1 ≠ [])
    (htop : (resolveCandidates text_seg speaker_vtt).1.headI.overlap_ratio > 0.8) :
    let cands := (resolveCandidates text_seg speaker_vtt).1
    let top := cands.headI
    let st' := alignStep speaker_vtt text_vtt client setOrder st (i, text_seg)
    (cands.length = 1 →
      ∃ seg, st'.aligned = st.aligned ++ [seg] ∧ seg.speaker = top.speaker ∧
        seg.match_type = "high_confidence" ∧
        seg.confidence =
          min 0.99 (top.overlap_ratio * top.confidence_multiplier * 1.1)) ∧
    (cands.length > 1 → ¬ ((cands.getD 1 default).overlap_ratio > 0.15) →
      ∃ seg, st'.aligned = st.aligned ++ [seg] ∧ seg.speaker = top.speaker ∧
        seg.match_type = "high_confidence" ∧
        seg.confidence = top.overlap_ratio * top.confidence_multiplier) ∧
    (cands.length > 1 → (cands.getD 1 default).overlap_ratio > 0.15 →
      ∃ seg, st'.aligned = st.aligned ++ [seg] ∧ seg.match_type = "llm_resolved") := by
  intro cands top st'
  have hstep : st'.aligned =
      (alignStep speaker_vtt text_vtt client setOrder st (i, text_seg)).aligned := rfl
  simp only [alignStep, hsp, ne_eq, not_true_eq_false, if_false] at hstep
  rw [if_neg hne] at hstep
  refine ⟨?_, ?_, ?_⟩
  · intro hlen
    rw [if_pos ⟨hlen, htop⟩] at hstep
    exact ⟨_, hstep, rfl, rfl, rfl⟩
  · intro hlen hsecond
    rw [if_neg (fun hc => absurd hc.1 (ne_of_gt hlen)),
        if_neg (fun hc => hsecond hc.2)] at hstep
    exact ⟨_, hstep, rfl, rfl, rfl⟩
  · intro hlen hsecond
    rw [if_neg (fun hc => absurd hc.1 (ne_of_gt hlen)),
        if_pos ⟨hlen, hsecond⟩] at hstep
    exact ⟨_, hstep, rfl⟩

/-- Witness for C1: the single-candidate branch at a concrete
fully-overlapping speaker. -/
theorem claim_C1_witness :
    ∃ seg,
      (alignStep [⟨0, 10, "Alice", ""⟩] [] none id
          ⟨[], ⟨0, 0, 0⟩, ⟨0, 0, 0⟩⟩ (0, ⟨0, 10, "", "t"⟩)).aligned =
        ([] : List AlignedSegment) ++ [seg] ∧
      seg.speaker =
        (resolveCandidates ⟨0, 10, "", "t"⟩ [⟨0, 10, "Alice", ""⟩]).1.headI.speaker ∧
      seg.match_type = "high_confidence" ∧
      seg.confidence = min 0.99
        ((resolveCandidates ⟨0, 10, "", "t"⟩ [⟨0, 10, "Alice", ""⟩]).1.headI.overlap_ratio *
          (resolveCandidates ⟨0, 10, "", "t"⟩
            [⟨0, 10, "Alice", ""⟩]).1.headI.confidence_multiplier * 1.1) :=
  (claim_C1 [⟨0, 10, "Alice", ""⟩] [] none id ⟨[], ⟨0, 0, 0⟩, ⟨0, 0, 0⟩⟩ 0
      ⟨0, 10, "", "t"⟩ rfl
      (of_decide_eq_true (by with_unfolding_all rfl))
      (of_decide_eq_true (by with_unfolding_all rfl))).1
    (of_decide_eq_true (by with_unfolding_all rfl))

/-- Counterexample to C1 as stated: a segment whose top candidate has
ratio 0.9 > 0.8 among two candidates with second ratio 0.5 > 0.15 is
routed to the oracle (`llm_resolved`), not accepted as
`high_confidence`. -/
theorem claim_C1_cex :
    (resolveCandidates ⟨0, 10, "", "hello"⟩
        [⟨0, 9, "Alice", ""⟩, ⟨5, 10, "Bob", ""⟩]).1.headI.overlap_ratio > 0.8 ∧
    (resolveCandidates ⟨0, 10, "", "hello"⟩
        [⟨0, 9, "Alice", ""⟩, ⟨5, 10, "Bob", ""⟩]).1 ≠ [] ∧
    (align_with_llm [⟨0, 9, "Alice", ""⟩, ⟨5, 10, "Bob", ""⟩] [⟨0, 10, "", "hello"⟩]
        none id).map (fun s => (s.speaker, s.confidence, s.match_type)) =
      [("Alice", 0.9, "llm_resolved")] :=
  of_decide_eq_true (by with_unfolding_all rfl)

/-! ## Claim C8: determinism of the orchestrator -/

/-- C8 (amended): with the oracle stubbed, two runs on identical inputs
produce identical `AlignedSegment` sequences provided the iteration order
of the Python `set` in the pseudo-candidate branch is also identical; the
loop is a left fold over the enumerated split-expanded sequence, so each
decision depends only on the inputs, the stub, and the state accumulated
from the already-decided prior segments.  (The set order itself is not
determined by the inputs; see the counterexample.) -/
theorem claim_C8 (speaker_vtt text_vtt : List VTTSegment) (client : Option Oracle)
    (setOrder1 setOrder2 : List String → List String) (st : AlignState)
    (items1 items2 : List (Nat × VTTSegment)) (hso : setOrder1 = setOrder2) :
    align_with_llm speaker_vtt text_vtt client setOrder1 =
      align_with_llm speaker_vtt text_vtt client setOrder2 ∧
    alignLoop speaker_vtt text_vtt client setOrder1 st (items1 ++ items2) =
      alignLoop speaker_vtt text_vtt client setOrder1
        (alignLoop speaker_vtt text_vtt client setOrder1 st items1) items2 := by
  subst hso
  exact ⟨rfl, List.foldl_append _ _ _ _⟩

/-- Witness for C8 at concrete inputs and an identical stub order. -/
theorem claim_C8_witness :
    align_with_llm [⟨0, 10, "Alice", ""⟩] [⟨0, 10, "", "t"⟩] none id =
      align_with_llm [⟨0, 10, "Alice", ""⟩] [⟨0, 10, "", "t"⟩] none id ∧
    alignLoop [⟨0, 10, "Alice", ""⟩] [⟨0, 10, "", "t"⟩] none id
        ⟨[], ⟨0, 0, 0⟩, ⟨0, 0, 0⟩⟩ ([(0, ⟨0, 10, "", "t"⟩)] ++ [(1, ⟨0, 1, "", "u"⟩)]) =
      alignLoop [⟨0, 10, "Alice", ""⟩] [⟨0, 10, "", "t"⟩] none id
        (alignLoop [⟨0, 10, "Alice", ""⟩] [⟨0, 10, "", "t"⟩] none id
          ⟨[], ⟨0, 0, 0⟩, ⟨0, 0, 0⟩⟩ [(0, ⟨0, 10, "", "t"⟩)]) [(1, ⟨0, 1, "", "u"⟩)] :=
  claim_C8 [⟨0, 10, "Alice", ""⟩] [⟨0, 10, "", "t"⟩] none id id
    ⟨[], ⟨0, 0, 0⟩, ⟨0, 0, 0⟩⟩ [(0, ⟨0, 10, "", "t"⟩)] [(1, ⟨0, 1, "", "u"⟩)] rfl

/-- Counterexample to C8 as stated: two runs on identical inputs with the
same stubbed oracle (always failing) differ when the unspecified set
iteration order of the pseudo-candidate branch differs, and the set order
is not part of the inputs. -/
theorem claim_C8_cex :
    align_with_llm
        [⟨0, 10, "Alice", ""⟩, ⟨10, 20, "Bob", ""⟩, ⟨20, 30, "Alice", ""⟩,
         ⟨30, 40, "Bob", ""⟩, ⟨40, 50, "Alice", ""⟩]
        [⟨0, 10, "", "a"⟩, ⟨10, 20, "", "b"⟩, ⟨20, 30, "", "c"⟩, ⟨30, 40, "", "d"⟩,
         ⟨40, 50, "", "e"⟩, ⟨100, 101, "", "f"⟩]
        (some (fun _ _ _ _ => Except.error "transport failure")) id ≠
      align_with_llm
        [⟨0, 10, "Alice", ""⟩, ⟨10, 20, "Bob", ""⟩, ⟨20, 30, "Alice", ""⟩,
         ⟨30, 40, "Bob", ""⟩, ⟨40, 50, "Alice", ""⟩]
        [⟨0, 10, "", "a"⟩, ⟨10, 20, "", "b"⟩, ⟨20, 30, "", "c"⟩, ⟨30, 40, "", "d"⟩,
         ⟨40, 50, "", "e"⟩, ⟨100, 101, "", "f"⟩]
        (some (fun _ _ _ _ => Except.error "transport failure")) List.reverse :=
  of_decide_eq_true (by with_unfolding_all rfl)

/-! ## Claim C3: shape of the aggregated candidate list -/

/-- Total overlap duration contributed to speaker `s` by a candidate
list. -/
def sumFor (s : String) (l : List Candidate) : ℚ :=
  ((l.filter (fun c => c.speaker = s)).map Candidate.overlap_duration).sum

theorem sumFor_cons (s : String) (c : Candidate) (l : List Candidate) :
    sumFor s (c :: l) =
      (if c.speaker = s then c.overlap_duration else 0) + sumFor s l := by
  simp only [sumFor, List.filter_cons]
  by_cases h : c.speaker = s <;> simp [h]

theorem sumFor_append (s : String) (l1 l2 : List Candidate) :
    sumFor s (l1 ++ l2) = sumFor s l1 + sumFor s l2 := by
  simp [sumFor, List.filter_append]

theorem sumFor_perm (s : String) {l l' : List Candidate} (h : List.Perm l l') :
    sumFor s l = sumFor s l' :=
  ((h.filter _).map Candidate.overlap_duration).sum_eq

theorem insertByOverlap_perm (c : Candidate) (l : List Candidate) :
    List.Perm (insertByOverlap c l) (c :: l) := by
  induction l with
  | nil => exact List.Perm.refl _
  | cons d ds ih =>
    rw [insertByOverlap]
    split
    · exact (ih.cons d).trans (List.Perm.swap c d ds)
    · exact List.Perm.refl _

theorem sortByOverlap_perm (l : List Candidate) :
    List.Perm (sortByOverlap l) l := by
  induction l with
  | nil => exact List.Perm.refl _
  | cons c cs ih => exact (insertByOverlap_perm c (sortByOverlap cs)).trans (ih.cons c)

theorem insertByOverlap_sorted {c : Candidate} {l : List Candidate}
    (h : l.Pairwise (fun a b => b.overlap_duration ≤ a.overlap_duration)) :
    (insertByOverlap c l).Pairwise
      (fun a b => b.overlap_duration ≤ a.overlap_duration) := by
  induction l with
  | nil => simp [insertByOverlap]
  | cons d ds ih =>
    rw [insertByOverlap]
    rcases List.pairwise_cons.mp h with ⟨hd, hds⟩
    split
    · rename_i hlt
      refine List.pairwise_cons.mpr ⟨?_, ih hds⟩
      intro x hx
      rcases List.mem_cons.mp ((insertByOverlap_perm c ds).mem_iff.mp hx) with heq | hxds
      · rw [heq]
        exact le_of_lt hlt
      · exact hd x hxds
    · rename_i hge
      refine List.pairwise_cons.mpr ⟨?_, h⟩
      intro x hx
      rcases List.mem_cons.mp hx with rfl | hxds
      · exact le_of_not_lt hge
      · exact le_trans (hd x hxds) (le_of_not_lt hge)

theorem sortByOverlap_sorted (l : List Candidate) :
    (sortByOverlap l).Pairwise (fun a b => b.overlap_duration ≤ a.overlap_duration) := by
  induction l with
  | nil => simp [sortByOverlap]
  | cons c cs ih => exact insertByOverlap_sorted ih

/-- Under speaker-distinctness, the candidate list of a given speaker is
empty or a singleton. -/
theorem filter_speaker_of_pairwise {acc : List Candidate}
    (h : acc.Pairwise (fun a b => a.speaker ≠ b.speaker)) (s : String) :
    acc.filter (fun c => c.speaker = s) = [] ∨
      ∃ t0, t0 ∈ acc ∧ t0.speaker = s ∧
        acc.filter (fun c => c.speaker = s) = [t0] := by
  induction acc with
  | nil => exact Or.inl rfl
  | cons a as ih =>
    rcases List.pairwise_cons.mp h with ⟨ha, has⟩
    by_cases hs : a.speaker = s
    · right
      refine ⟨a, List.mem_cons_self a as, hs, ?_⟩
      have : as.filter (fun c => c.speaker = s) = [] :=
        List.filter_eq_nil_iff.mpr (fun x hx => by
          simp only [decide_eq_true_eq]
          exact fun hxs => (ha x hx) (hs.trans hxs.symm))
      simp [List.filter_cons, hs, this]
    · rcases ih has with hnil | ⟨t0, ht0, hts, hfil⟩
      · exact Or.inl (by simp [List.filter_cons, hs, hnil])
      · exact Or.inr ⟨t0, List.mem_cons_of_mem a ht0, hts,
          by simp [List.filter_cons, hs, hfil]⟩

theorem sumFor_of_distinct {acc : List Candidate}
    (h : acc.Pairwise (fun a b => a.speaker ≠ b.speaker)) {t : Candidate}
    (ht : t ∈ acc) : sumFor t.speaker acc = t.overlap_duration := by
  rcases filter_speaker_of_pairwise h t.speaker with hnil | ⟨t0, ht0, hts, hfil⟩
  · have : t ∈ acc.filter (fun c => c.speaker = t.speaker) :=
      List.mem_filter.mpr ⟨ht, by simp⟩
    rw [hnil] at this
    cases this
  · have htt : t ∈ acc.filter (fun c => c.speaker = t.speaker) :=
      List.mem_filter.mpr ⟨ht, by simp⟩
    rw [hfil] at htt
    rcases List.mem_singleton.mp htt with rfl
    simp [sumFor, hfil]

/-- The per-entry update inside `addOverlap` preserves the speaker. -/
theorem updSpeaker (c t : Candidate) :
    (if t.speaker = c.speaker then
       ({ t with overlap_duration := t.overlap_duration + c.overlap_duration } : Candidate)
     else t).speaker = t.speaker := by
  split <;> rfl

/-- The per-entry update inside `addOverlap` adds the incoming duration
exactly to the matching speaker. -/
theorem updDuration (c t : Candidate) :
    (if t.speaker = c.speaker then
       ({ t with overlap_duration := t.overlap_duration + c.overlap_duration } : Candidate)
     else t).overlap_duration =
      t.overlap_duration + (if t.speaker = c.speaker then c.overlap_duration else 0) := by
  split <;> simp

theorem addOverlap_pairwise {acc : List Candidate} (c : Candidate)
    (h : acc.Pairwise (fun a b => a.speaker ≠ b.speaker)) :
    (addOverlap acc c).Pairwise (fun a b => a.speaker ≠ b.speaker) := by
  rw [addOverlap]
  split
  · refine h.map _ (fun a b hab => ?_)
    rw [updSpeaker, updSpeaker]
    exact hab
  · rename_i hany
    rw [List.pairwise_append]
    refine ⟨h, by simp, ?_⟩
    intro a ha b hb
    rcases List.mem_singleton.mp hb with rfl
    have : ∀ t ∈ acc, ¬ (t.speaker = c.speaker) := by
      intro t ht hts
      exact hany (List.any_eq_true.mpr ⟨t, ht, decide_eq_true hts⟩)
    exact this a ha

theorem addOverlap_mem_speaker (acc : List Candidate) (c : Candidate) :
    (∀ t ∈ addOverlap acc c,
      (∃ t0 ∈ acc, t.speaker = t0.speaker) ∨ t.speaker = c.speaker) ∧
    (∀ t0 ∈ acc, ∃ t ∈ addOverlap acc c, t.speaker = t0.speaker) ∧
    (∃ t ∈ addOverlap acc c, t.speaker = c.speaker) := by
  rw [addOverlap]
  split
  · rename_i hany
    refine ⟨?_, ?_, ?_⟩
    · intro t ht
      rcases List.mem_map.mp ht with ⟨t0, ht0, heq⟩
      exact Or.inl ⟨t0, ht0, by rw [← heq, updSpeaker]⟩
    · intro t0 ht0
      exact ⟨_, List.mem_map_of_mem _ ht0, updSpeaker c t0⟩
    · rcases List.any_eq_true.mp hany with ⟨t0, ht0, hts⟩
      refine ⟨_, List.mem_map_of_mem _ ht0, ?_⟩
      rw [updSpeaker]
      exact of_decide_eq_true hts
  · refine ⟨?_, ?_, ?_⟩
    · intro t ht
      rcases List.mem_append.mp ht with h1 | h2
      · exact Or.inl ⟨t, h1, rfl⟩
      · rcases List.mem_singleton.mp h2 with rfl
        exact Or.inr rfl
    · intro t0 ht0
      exact ⟨t0, List.mem_append_left _ ht0, rfl⟩
    · exact ⟨_, List.mem_append_right _ (List.mem_singleton_self _), rfl⟩

theorem sumFor_addOverlap (acc : List Candidate) (c : Candidate)
    (h : acc.Pairwise (fun a b => a.speaker ≠ b.speaker)) (s : String) :
    sumFor s (addOverlap acc c) =
      sumFor s acc + (if c.speaker = s then c.overlap_duration else 0) := by
  rw [addOverlap]
  split
  · rename_i hany
    have hmap : sumFor s (acc.map (fun t =>
        if t.speaker = c.speaker then
          ({ t with overlap_duration := t.overlap_duration + c.overlap_duration } : Candidate)
        else t)) =
        (((acc.filter (fun t => t.speaker = s)).map (fun t =>
          t.overlap_duration + (if t.speaker = c.speaker then c.overlap_duration else 0))).sum) := by
      rw [sumFor, List.filter_map]
      have hpred : ((fun x : Candidate => decide (x.speaker = s)) ∘ (fun t =>
          if t.speaker = c.speaker then
            ({ t with overlap_duration := t.overlap_duration + c.overlap_duration } : Candidate)
          else t)) = (fun t : Candidate => decide (t.speaker = s)) := by
        funext t
        simp only [Function.comp_apply, updSpeaker]
      rw [hpred, List.map_map]
      congr 1
      refine List.map_congr_left (fun t ht => ?_)
      simp only [Function.comp_apply, updDuration]
    rw [hmap]
    by_cases hcs : c.speaker = s
    · rcases filter_speaker_of_pairwise h s with hnil | ⟨t0, ht0, hts, hfil⟩
      · exfalso
        rcases List.any_eq_true.mp hany with ⟨t1, ht1, hts1⟩
        have ht1s : t1.speaker = s := (of_decide_eq_true hts1).trans hcs
        have : t1 ∈ acc.filter (fun t => t.speaker = s) :=
          List.mem_filter.mpr ⟨ht1, decide_eq_true ht1s⟩
        rw [hnil] at this
        cases this
      · rw [hfil, sumFor, hfil]
        simp [hts, hcs]
    · have : ∀ t ∈ acc.filter (fun t : Candidate => t.speaker = s),
          ¬ (t.speaker = c.speaker) := by
        intro t ht hcon
        rcases List.mem_filter.mp ht with ⟨_, hts⟩
        exact hcs ((hcon.symm.trans (of_decide_eq_true hts)))
      rw [if_neg hcs, sumFor]
      have : ((acc.filter (fun t : Candidate => t.speaker = s)).map (fun t =>
          t.overlap_duration + (if t.speaker = c.speaker then c.overlap_duration else 0))) =
          ((acc.filter (fun t : Candidate => t.speaker = s)).map Candidate.overlap_duration) := by
        refine List.map_congr_left (fun t ht => ?_)
        rw [if_neg (this t ht)]
        simp
      rw [this]
      simp
  · rw [sumFor_append]
    congr 1
    by_cases hcs : c.speaker = s <;> simp [sumFor, List.filter_cons, hcs]

theorem groupBy_go (l : List Candidate) :
    ∀ acc : List Candidate, acc.Pairwise (fun a b => a.speaker ≠ b.speaker) →
      (l.foldl addOverlap acc).Pairwise (fun a b => a.speaker ≠ b.speaker) ∧
      (∀ t ∈ l.foldl addOverlap acc,
        (∃ t0 ∈ acc, t.speaker = t0.speaker) ∨ (∃ r ∈ l, r.speaker = t.speaker)) ∧
      (∀ t ∈ l.foldl addOverlap acc,
        t.overlap_duration = sumFor t.speaker acc + sumFor t.speaker l) ∧
      (∀ r ∈ l, ∃ t ∈ l.foldl addOverlap acc, t.speaker = r.speaker) ∧
      (∀ t0 ∈ acc, ∃ t ∈ l.foldl addOverlap acc, t.speaker = t0.speaker) := by
  induction l with
  | nil =>
    intro acc hacc
    refine ⟨hacc, ?_, ?_, ?_, ?_⟩
    · intro t ht
      exact Or.inl ⟨t, ht, rfl⟩
    · intro t ht
      rw [sumFor_of_distinct hacc ht]
      simp [sumFor]
    · intro r hr
      cases hr
    · intro t0 ht0
      exact ⟨t0, ht0, rfl⟩
  | cons c l ih =>
    intro acc hacc
    have hacc' := addOverlap_pairwise c hacc
    obtain ⟨ih1, ih2, ih3, ih4, ih5⟩ := ih (addOverlap acc c) hacc'
    obtain ⟨m1, m2, m3⟩ := addOverlap_mem_speaker acc c
    rw [List.foldl_cons]
    refine ⟨ih1, ?_, ?_, ?_, ?_⟩
    · intro t ht
      rcases ih2 t ht with ⟨t0, ht0, hts⟩ | ⟨r, hr, hrs⟩
      · rcases m1 t0 ht0 with ⟨t1, ht1, ht1s⟩ | hcs
        · exact Or.inl ⟨t1, ht1, hts.trans ht1s⟩
        · exact Or.inr ⟨c, List.mem_cons_self c l, (hts.trans hcs).symm⟩
      · exact Or.inr ⟨r, List.mem_cons_of_mem c hr, hrs⟩
    · intro t ht
      rw [sumFor_cons, ih3 t ht, sumFor_addOverlap acc c hacc]
      ring
    · intro r hr
      rcases List.mem_cons.mp hr with heq | hmem
      · obtain ⟨t1, ht1, ht1s⟩ := m3
        obtain ⟨t, ht, hts⟩ := ih5 t1 ht1
        exact ⟨t, ht, by rw [hts, ht1s, heq]⟩
      · exact ih4 r hmem
    · intro t0 ht0
      obtain ⟨t1, ht1, ht1s⟩ := m2 t0 ht0
      obtain ⟨t, ht, hts⟩ := ih5 t1 ht1
      exact ⟨t, ht, hts.trans ht1s⟩

/-- C3: the aggregated candidate list has exactly one entry per distinct
overlapping speaker, each entry's duration is the sum of the per-segment
overlaps of that speaker, its ratio is `summed_overlap / target_duration`
(0 when the target duration is 0), and the list is stably sorted in
descending duration order — witnessed by the concrete tie case where
"Alice" precedes "Bob" by insertion order. -/
theorem claim_C3 (text_seg : VTTSegment) (speaker_segs : List VTTSegment)
    (tolerance : ℚ) :
    let raw := speaker_segs.filterMap (rawCandidate text_seg tolerance)
    let result := find_speaker_candidates text_seg speaker_segs tolerance
    result.Pairwise (fun a b => a.speaker ≠ b.speaker) ∧
    (∀ r ∈ raw, ∃ c ∈ result, c.speaker = r.speaker) ∧
    (∀ c ∈ result, ∃ r ∈ raw, r.speaker = c.speaker) ∧
    (∀ c ∈ result, c.overlap_duration = sumFor c.speaker raw) ∧
    (∀ c ∈ result, c.overlap_ratio =
      c.overlap_duration / (text_seg.stop - text_seg.start)) ∧
    (text_seg.stop - text_seg.start = 0 → ∀ c ∈ result, c.overlap_ratio = 0) ∧
    result.Pairwise (fun a b => b.overlap_duration ≤ a.overlap_duration) ∧
    find_speaker_candidates ⟨10, 20, "", ""⟩
        [⟨10, 15, "Alice", ""⟩, ⟨15, 20, "Bob", ""⟩] 0 =
      [⟨"Alice", 5, 0.5, 1, false⟩, ⟨"Bob", 5, 0.5, 1, false⟩] := by
  intro raw result
  have hres : result = sortByOverlap ((groupBySpeaker (sortByOverlap raw)).map
      (fun c => { c with
        overlap_ratio := c.overlap_duration / (text_seg.stop - text_seg.start) })) := rfl
  obtain ⟨g1, g2, g3, g4, g5⟩ := groupBy_go (sortByOverlap raw) [] List.Pairwise.nil
  have hperm : List.Perm result ((groupBySpeaker (sortByOverlap raw)).map
      (fun c => { c with
        overlap_ratio := c.overlap_duration / (text_seg.stop - text_seg.start) })) := by
    rw [hres]
    exact sortByOverlap_perm _
  have hmemr : ∀ c, c ∈ result ↔ ∃ g ∈ groupBySpeaker (sortByOverlap raw),
      ({ g with overlap_ratio :=
        g.overlap_duration / (text_seg.stop - text_seg.start) } : Candidate) = c := by
    intro c
    rw [hperm.mem_iff, List.mem_map]
  have hrawperm : List.Perm (sortByOverlap raw) raw := sortByOverlap_perm raw
  refine ⟨?_, ?_, ?_, ?_, ?_, ?_, ?_, ?_⟩
  · exact (hperm.pairwise_iff (fun h => Ne.symm h)).mpr
      (List.Pairwise.map _ (fun a b hab => hab) g1)
  · intro r hr
    obtain ⟨t, ht, hts⟩ := g4 r (hrawperm.symm.subset hr)
    exact ⟨{ t with
        overlap_ratio := t.overlap_duration / (text_seg.stop - text_seg.start) },
      (hmemr _).mpr ⟨t, ht, rfl⟩, hts⟩
  · intro c hc
    obtain ⟨g, hg, hgc⟩ := (hmemr c).mp hc
    rcases g2 g hg with ⟨t0, ht0, _⟩ | ⟨r, hr, hrs⟩
    · exact absurd ht0 (List.not_mem_nil t0)
    · refine ⟨r, hrawperm.subset hr, ?_⟩
      rw [← hgc]
      exact hrs
  · intro c hc
    obtain ⟨g, hg, hgc⟩ := (hmemr c).mp hc
    rw [← hgc]
    show g.overlap_duration = sumFor g.speaker raw
    rw [g3 g hg, sumFor_perm g.speaker hrawperm]
    simp [sumFor]
  · intro c hc
    obtain ⟨g, hg, hgc⟩ := (hmemr c).mp hc
    rw [← hgc]
  · intro htd c hc
    obtain ⟨g, hg, hgc⟩ := (hmemr c).mp hc
    rw [← hgc]
    show g.overlap_duration / (text_seg.stop - text_seg.start) = 0
    rw [htd, div_zero]
  · rw [hres]
    exact sortByOverlap_sorted _
  · with_unfolding_all rfl

/-- Witness for C3: in the Scenario-B tie, the "Alice" entry is in the
result and its duration is the summed raw overlap for "Alice". -/
theorem claim_C3_witness :
    (⟨"Alice", 5, 0.5, 1, false⟩ : Candidate) ∈
      find_speaker_candidates ⟨10, 20, "", ""⟩
        [⟨10, 15, "Alice", ""⟩, ⟨15, 20, "Bob", ""⟩] 0 ∧
    (⟨"Alice", 5, 0.5, 1, false⟩ : Candidate).overlap_duration =
      sumFor "Alice"
        ([⟨10, 15, "Alice", ""⟩, ⟨15, 20, "Bob", ""⟩].filterMap
          (rawCandidate ⟨10, 20, "", ""⟩ 0)) :=
  have hmem : (⟨"Alice", 5, 0.5, 1, false⟩ : Candidate) ∈
      find_speaker_candidates ⟨10, 20, "", ""⟩
        [⟨10, 15, "Alice", ""⟩, ⟨15, 20, "Bob", ""⟩] 0 :=
    of_decide_eq_true (by with_unfolding_all rfl)
  ⟨hmem, (claim_C3 ⟨10, 20, "", ""⟩
    [⟨10, 15, "Alice", ""⟩, ⟨15, 20, "Bob", ""⟩] 0).2.2.2.1 _ hmem⟩

/-! ## Claims C6 and C9: parser output invariants -/

theorem dropWhile_head_not {p : Char → Bool} {l : List Char} {c : Char}
    {t : List Char} (h : l.dropWhile p = c :: t) : ¬ p c := by
  induction l with
  | nil => cases h
  | cons a as ih =>
    rw [List.dropWhile_cons] at h
    split at h
    · exact ih h
    · rename_i hpa
      rcases List.cons.inj h with ⟨rfl, rfl⟩
      exact hpa

/-- A non-empty strip result starts with a non-whitespace character. -/
theorem stripChars_head_not_space {l : List Char} {c : Char} {t : List Char}
    (h : stripChars l = c :: t) : ¬ isSpace c := by
  have hpre : (c :: t) <+: l.dropWhile isSpace := by
    rw [← h]
    exact List.rdropWhile_prefix isSpace (l.dropWhile isSpace)
  rcases hpre with ⟨s, hs⟩
  have hs' : l.dropWhile isSpace = c :: (t ++ s) := by
    rw [← hs]
    rfl
  exact dropWhile_head_not hs'

/-- Stripping a list headed by a non-whitespace character is non-empty. -/
theorem stripChars_cons_ne_nil {c : Char} (hc : ¬ isSpace c) (x : List Char) :
    stripChars (c :: x) ≠ [] := by
  rw [stripChars, List.dropWhile_cons, if_neg hc]
  intro hnil
  have := List.rdropWhile_eq_nil_iff.mp hnil
  exact hc (this c (List.mem_cons_self c x))

/-- Inversion of a successful `speakerBeforeColon` match: the captured
group starts with the first character of the line. -/
theorem speakerBeforeColon_some {l pre : List Char}
    (h : speakerBeforeColon l = some pre) :
    ∃ c t, l = c :: t ∧ ¬ c = ':' ∧
      pre = c :: t.takeWhile (fun d => ¬ d = ':') := by
  rw [speakerBeforeColon] at h
  split at h
  · cases h
  · rename_i hcond
    rcases Option.some.inj h with rfl
    cases l with
    | nil => exact absurd (Or.inl rfl) hcond
    | cons c t =>
      rw [List.takeWhile_cons] at hcond ⊢
      by_cases hc : (¬ c = ':' : Bool)
      · simp only [hc, if_true, if_pos] at hcond ⊢
        exact ⟨c, t, rfl, by simpa using hc, rfl⟩
      · simp only [hc] at hcond ⊢
        exact absurd (Or.inl rfl) hcond

/-- Every entry of `blockTextLines` is a non-empty stripped line. -/
theorem blockTextLines_mem {ls : List (List Char)} {x : List Char}
    (h : x ∈ blockTextLines ls) : ∃ line, x = stripChars line ∧ stripChars line ≠ [] := by
  rcases List.mem_filterMap.mp h with ⟨line, _, hf⟩
  split at hf
  · cases hf
  · split at hf
    · rename_i hcond
      rcases Option.some.inj hf with rfl
      exact ⟨line, rfl, hcond.1⟩
    · cases hf

/-- The speaker produced for one cue of the speaker-labelled file is
never empty, and its text is always cleared. -/
theorem speakerBlock_inv {block : List Char} {seg : VTTSegment}
    (h : speakerBlock block = some seg) : seg.speaker ≠ "" ∧ seg.text = "" := by
  rw [speakerBlock] at h
  split at h
  · cases h
  · dsimp only at h
    split at h
    case _ timestamp_line first_line rest heq1 heq2 =>
      split at h
      · rcases Option.some.inj h with rfl
        refine ⟨?_, rfl⟩
        cases hm : speakerBeforeColon first_line with
        | none => simp [hm]
        | some pre =>
          simp only [hm]
          have hmemtl : first_line ∈ blockTextLines (splitChar '\n' (stripChars block)) := by
            rw [heq2]
            exact List.mem_cons_self _ _
          obtain ⟨line, hline, hlinene⟩ := blockTextLines_mem hmemtl
          obtain ⟨c, t, hfst, hcolon, hpre⟩ := speakerBeforeColon_some hm
          have hcs : ¬ isSpace c :=
            stripChars_head_not_space (hline.symm.trans hfst)
          intro hcon
          have : stripChars pre = [] := congrArg String.data hcon
          rw [hpre] at this
          exact stripChars_cons_ne_nil hcs _ this
      · cases h
    · cases h

/-- C9: every segment returned by `parse_vtt_with_speakers` has a
non-empty speaker (the literal "Unknown" when no `Name:` prefix matches)
and empty text. -/
theorem claim_C9 (content : String) :
    ∀ seg ∈ parse_vtt_with_speakers content, seg.speaker ≠ "" ∧ seg.text = "" := by
  intro seg hseg
  rcases List.mem_filterMap.mp hseg with ⟨block, _, hb⟩
  exact speakerBlock_inv hb

/-- Witness for C9 on a concrete two-cue file, one cue with a `Name:`
prefix and one without. -/
theorem claim_C9_witness :
    (⟨0, 5, "Alice Smith", ""⟩ : VTTSegment) ∈
      parse_vtt_with_speakers
        "WEBVTT\n\n1\n00:00:00.000 --> 00:00:05.000\nAlice Smith: hello\n\n2\n00:00:05.000 --> 00:00:10.000\nnoprefix\n" ∧
    ((⟨0, 5, "Alice Smith", ""⟩ : VTTSegment).speaker ≠ "" ∧
      (⟨0, 5, "Alice Smith", ""⟩ : VTTSegment).text = "") :=
  have hmem : (⟨0, 5, "Alice Smith", ""⟩ : VTTSegment) ∈
      parse_vtt_with_speakers
        "WEBVTT\n\n1\n00:00:00.000 --> 00:00:05.000\nAlice Smith: hello\n\n2\n00:00:05.000 --> 00:00:10.000\nnoprefix\n" :=
    of_decide_eq_true (by with_unfolding_all rfl)
  ⟨hmem, claim_C9 _ _ hmem⟩

/-- Every segment built by the TurboScribe text loop has non-empty text
(the `if text:` guard). -/
theorem turboSegs_text_ne (content : List Char) (ms : List TurboMatch) :
    ∀ seg ∈ turboSegs content ms, seg.text ≠ "" := by
  induction ms with
  | nil =>
    intro seg hseg
    cases hseg
  | cons m rest ih =>
    intro seg hseg
    simp only [turboSegs] at hseg
    rcases List.mem_append.mp hseg with h1 | h2
    · split at h1
      · rename_i htext
        rcases List.mem_singleton.mp h1 with rfl
        intro hcon
        exact htext (congrArg String.data hcon)
      · exact absurd h1 (List.not_mem_nil seg)
    · exact ih seg h2

/-- C6 (amended): every segment output by the TurboScribe-format parser
of the text-reliable role has non-empty text.  (The standard-format
branch appends segments unconditionally; see the counterexample.) -/
theorem claim_C6 (content : String) :
    ∀ seg ∈ parse_turboscribe_format content, seg.text ≠ "" :=
  turboSegs_text_ne content.data (findTurbo content.data 0)

/-- Witness for C6 on a concrete TurboScribe file. -/
theorem claim_C6_witness :
    (⟨5, 65, "", "Hello there."⟩ : VTTSegment) ∈
      parse_turboscribe_format "[Speaker 1] (0:05 - 1:05)\nHello there.\n" ∧
    (⟨5, 65, "", "Hello there."⟩ : VTTSegment).text ≠ "" :=
  have hmem : (⟨5, 65, "", "Hello there."⟩ : VTTSegment) ∈
      parse_turboscribe_format "[Speaker 1] (0:05 - 1:05)\nHello there.\n" :=
    of_decide_eq_true (by with_unfolding_all rfl)
  ⟨hmem, claim_C6 _ _ hmem⟩

/-- Counterexample to C6 as stated: in the standard layout, a cue whose
text is exactly an inline `[SPEAKER_n]` tag is parsed into a segment with
empty text instead of being dropped. -/
theorem claim_C6_cex :
    (parse_vtt_without_speakers "f.vtt"
        "WEBVTT\n\n00:00:01.000 --> 00:00:02.000\n[SPEAKER_1]\n").map
      (fun s => (s.start, s.stop, s.speaker, s.text)) = [(1, 2, "", "")] :=
  by with_unfolding_all rfl

end VttAlign
